import Mathlib

/-!
Verification of the Capitol Trades scraping and aggregation pipeline.

This file gives a shallow embedding of the pipeline implemented in
`src/politician-trades-scraper.ts` and of the tool-call validation logic in
`src/index.ts`, and proves the stated properties of pagination, row
filtering, the identifier cache, the aggregators, and parameter validation.

Modelling conventions:
* network fetches are abstracted as explicit inputs (a page fetch becomes a
  `List (Except String (List TradeWithPrice))` — the outcome of each
  successive page request; an identifier search becomes an
  `Except String String` — the link-finder outcome);
* JavaScript strings are Lean `String`s; `toLowerCase`, `trim`, `split` and
  substring containment are re-implemented over the character list so that
  all definitions evaluate by `decide`;
* a JavaScript `Map` (insertion-ordered) is an association list with
  in-place update and append-on-miss;
* JavaScript floating-point arithmetic on counts (ratio computation) is
  modelled with exact rationals, and `toFixed(2)` with round-half-up to two
  decimals;
* `Array.prototype.sort` with a comparator `c` (a stable sort in modern
  engines) is modelled by the stable `List.mergeSort` with
  `le a b := c a b ≤ 0`.
-/

namespace CapitolTrades

/-! ### String helpers (ASCII models of the JavaScript string operations) -/

/-- Model of checking that `pat` occurs at the start of `l`. -/
def listStartsWith : List Char → List Char → Bool
  | [], _ => true
  | _ :: _, [] => false
  | p :: ps, c :: cs => p == c && listStartsWith ps cs

/-- Model of `String.prototype.includes` over character lists. -/
def charListContains (pat : List Char) : List Char → Bool
  | [] => pat.isEmpty
  | c :: cs => listStartsWith pat (c :: cs) || charListContains pat cs

/-- Model of `String.prototype.includes`: `pat` occurs somewhere in `s`. -/
def strContainsSub (s pat : String) : Bool :=
  charListContains pat.data s.data

/-- Model of `String.prototype.toLowerCase` (ASCII). -/
def lowerStr (s : String) : String :=
  ⟨s.data.map Char.toLower⟩

/-- Model of `String.prototype.trim` (ASCII whitespace). -/
def trimStr (s : String) : String :=
  ⟨((s.data.dropWhile Char.isWhitespace).reverse.dropWhile Char.isWhitespace).reverse⟩

/-- Auxiliary scanner for `splitOnStr`: splits the list at every occurrence
of the nonempty separator `sep`. `skip` counts separator characters still to
be consumed after a match; `acc` holds the reversed chars of the current
chunk. -/
def splitCoreAux (sep : List Char) : List Char → Nat → List Char → List (List Char)
  | [], _, acc => [acc.reverse]
  | _ :: cs, skip + 1, acc => splitCoreAux sep cs skip acc
  | c :: cs, 0, acc =>
    if listStartsWith sep (c :: cs) then
      acc.reverse :: splitCoreAux sep cs (sep.length - 1) []
    else
      splitCoreAux sep cs 0 (c :: acc)

/-- Model of `String.prototype.split` with a plain-string separator. -/
def splitOnStr (s sep : String) : List String :=
  if sep.data.isEmpty then [s]
  else (splitCoreAux sep.data s.data 0 []).map (fun l => ⟨l⟩)

/-! ### Data model (`src/types.ts`) -/

/-- The `Politician` record of `types.ts`. -/
structure Politician where
  name : String
  party : String
  chamber : String
  state : String
deriving DecidableEq

/-- The `Issuer` record of `types.ts`. -/
structure Issuer where
  name : String
  ticker : String
deriving DecidableEq

/-- The `TradeDates` record of `types.ts`. -/
structure TradeDates where
  disclosure : String
  trade : String
  reportingGap : String
deriving DecidableEq

/-- The `TransactionWithPrice` record of `types.ts`. -/
structure TransactionWithPrice where
  type : String
  size : String
  price : String
deriving DecidableEq

/-- The `TradeWithPrice` record of `types.ts`. -/
structure TradeWithPrice where
  index : Nat
  politician : Politician
  issuer : Issuer
  dates : TradeDates
  transaction : TransactionWithPrice
deriving DecidableEq

/-! ### Page fetcher and row parser (`scrapePoliticianTradesSinglePage`) -/

/-- One table row as extracted by the cheerio selectors, before trimming and
defaulting: the text content of each class-marked sub-element, the two
date-shaped cell texts found by the cell scan (first = trade date, second =
disclosure date), and the `title`/`data-price` attribute chain result. -/
structure RawRow where
  politicianText : String
  partyText : String
  chamberText : String
  stateText : String
  disclosureText : String
  tradeDateText : String
  reportingGapText : String
  txTypeText : String
  tradeSizeText : String
  priceAttr : Option String
deriving DecidableEq

/-- The per-row body of `scrapePoliticianTradesSinglePage`: trim every field,
drop the row when politician name, issuer name and transaction type are all
empty, otherwise build the `TradeWithPrice` with the documented defaults.
`idx` is the 0-based position of the row among all scanned rows. -/
def parseRow (idx : Nat) (r : RawRow)
    (issuerNameText issuerTickerText : String) : Option TradeWithPrice :=
  let politicianName := trimStr r.politicianText
  let party := trimStr r.partyText
  let chamber := trimStr r.chamberText
  let state := trimStr r.stateText
  let reportingGap := trimStr r.reportingGapText
  let txType := trimStr r.txTypeText
  let tradeSize := trimStr r.tradeSizeText
  let price := match r.priceAttr with
    | some p => if p = "" then "N/A" else trimStr p
    | none => "N/A"
  let issuerName := trimStr issuerNameText
  let issuerTicker := trimStr issuerTickerText
  if politicianName = "" ∧ issuerName = "" ∧ txType = "" then
    none
  else
    some {
      index := idx + 1
      politician := ⟨politicianName, party, chamber, state⟩
      issuer := ⟨if issuerName = "" then "Unknown" else issuerName,
                 if issuerTicker = "" then "N/A" else issuerTicker⟩
      dates := ⟨r.disclosureText, r.tradeDateText,
                if reportingGap = "" then "" else reportingGap ++ " days"⟩
      transaction := ⟨txType, tradeSize, price⟩ }

/-- A scanned row together with its issuer-cell texts (kept separate only to
mirror the extraction order of the source; no semantic content). -/
structure PageRow where
  row : RawRow
  issuerNameText : String
  issuerTickerText : String
deriving DecidableEq

/-- The row loop of `scrapePoliticianTradesSinglePage` over already-fetched
rows: each row is parsed independently and appended when `parseRow` keeps it. -/
def scrapePoliticianTradesSinglePage (rows : List PageRow) : List TradeWithPrice :=
  rows.enum.filterMap (fun p => parseRow p.1 p.2.row p.2.issuerNameText p.2.issuerTickerText)

/-- Decidable form of the blank-row condition used by the filter claim. -/
def rowKept (r : PageRow) : Bool :=
  !(trimStr r.row.politicianText == "" && trimStr r.issuerNameText == ""
    && trimStr r.row.txTypeText == "")

/-! ### Paginator (`scrapePoliticianTrades`) -/

/-- The inner `for` loop of `scrapePoliticianTrades`: append each page trade
while the accumulated count is below `limit`, renumbering `index` to the
1-based position in the accumulated list. -/
def renumberAppend (limit : Nat) (acc : List TradeWithPrice)
    (page : List TradeWithPrice) : List TradeWithPrice :=
  page.foldl
    (fun acc t =>
      if acc.length < limit then acc ++ [{ t with index := acc.length + 1 }] else acc)
    acc

/-- The `while` loop of `scrapePoliticianTrades`. Each list element is the
outcome of fetching and parsing one successive page; `page` is the page
counter of the source (starting at 1). A fetch failure is fatal only on page 1; an
empty page or reaching `limit` stops pagination. -/
def scrapeLoop (limit : Nat) :
    List (Except String (List TradeWithPrice)) → List TradeWithPrice → Nat →
    Except String (List TradeWithPrice)
  | [], acc, _ => Except.ok acc
  | r :: rest, acc, page =>
    if acc.length < limit then
      match r with
      | Except.error e => if page = 1 then Except.error e else Except.ok acc
      | Except.ok pageTrades =>
        if pageTrades.length = 0 then Except.ok acc
        else
          let acc2 := renumberAppend limit acc pageTrades
          if limit ≤ acc2.length then Except.ok acc2
          else scrapeLoop limit rest acc2 (page + 1)
    else Except.ok acc

/-- `scrapePoliticianTrades(url, limit)`: run the pagination loop from an
empty accumulator and page 1, wrapping a propagated failure in the
error message of the function. `baseUrl` only determines which pages are fetched, which the
`pages` argument already abstracts. -/
def scrapePoliticianTrades (baseUrl : String) (limit : Nat)
    (pages : List (Except String (List TradeWithPrice))) :
    Except String (List TradeWithPrice) :=
  let _ := baseUrl
  match scrapeLoop limit pages [] 1 with
  | Except.ok l => Except.ok l
  | Except.error e => Except.error ("Failed to scrape politician trades: " ++ e)

/-! ### Pagination invariant -/

/-- Invariant of the accumulated trade list: bounded by `limit` and indexed
`1..n` in order. -/
def tradesInv (limit : Nat) (l : List TradeWithPrice) : Prop :=
  l.length ≤ limit ∧ l.map TradeWithPrice.index = List.range' 1 l.length

theorem renumberAppend_inv (limit : Nat) (page : List TradeWithPrice) :
    ∀ acc : List TradeWithPrice, tradesInv limit acc →
      tradesInv limit (renumberAppend limit acc page) := by
  induction page with
  | nil => intro acc h; exact h
  | cons t ts ih =>
    intro acc h
    have hstep : tradesInv limit
        (if acc.length < limit then acc ++ [{ t with index := acc.length + 1 }] else acc) := by
      by_cases hl : acc.length < limit
      · simp only [hl, if_true]
        refine ⟨by simpa using hl, ?_⟩
        have hmap : (acc ++ [{ t with index := acc.length + 1 }]).map TradeWithPrice.index
            = acc.map TradeWithPrice.index ++ [acc.length + 1] := by
          simp
        rw [hmap, h.2]
        have : List.range' 1 (acc.length + 1) = List.range' 1 acc.length ++ [1 + 1 * acc.length] := by
          exact List.range'_concat 1 acc.length
        simp only [List.length_append, List.length_cons, List.length_nil]
        rw [this]
        congr 1
        simp [Nat.add_comm]
      · simpa [hl] using h
    have := ih _ hstep
    simpa [renumberAppend, List.foldl_cons] using this

theorem scrapeLoop_inv (limit : Nat) :
    ∀ (pages : List (Except String (List TradeWithPrice)))
      (acc : List TradeWithPrice) (page : Nat) (res : List TradeWithPrice),
      tradesInv limit acc → scrapeLoop limit pages acc page = Except.ok res →
      tradesInv limit res := by
  intro pages
  induction pages with
  | nil =>
    intro acc page res h heq
    simp only [scrapeLoop, Except.ok.injEq] at heq
    exact heq ▸ h
  | cons r rest ih =>
    intro acc page res h heq
    simp only [scrapeLoop] at heq
    by_cases hl : acc.length < limit
    · simp only [hl, if_true] at heq
      match r with
      | Except.error e =>
        by_cases hp : page = 1
        · simp [hp] at heq
        · simp only [hp, if_false, Except.ok.injEq] at heq
          exact heq ▸ h
      | Except.ok pageTrades =>
        by_cases hz : pageTrades.length = 0
        · simp only [hz, if_true, Except.ok.injEq] at heq
          exact heq ▸ h
        · simp only [hz, if_false] at heq
          have hinv2 := renumberAppend_inv limit pageTrades acc h
          by_cases hge : limit ≤ (renumberAppend limit acc pageTrades).length
          · simp only [hge, if_true, Except.ok.injEq] at heq
            exact heq ▸ hinv2
          · simp only [hge, if_false] at heq
            exact ih _ _ _ hinv2 heq
    · simp only [hl, if_false, Except.ok.injEq] at heq
      exact heq ▸ h

/-- Claim C1: for every base URL, every positive `limit`, and every sequence
of per-page parse results, the list returned by `scrapePoliticianTrades`
holds at most `limit` trades and carries `index` values exactly `1..n` in
order (`n` the number of returned trades), regardless of per-page counts. -/
theorem scrapePoliticianTrades_limit_index (baseUrl : String) (limit : Nat)
    (pages : List (List TradeWithPrice)) (hpos : 0 < limit)
    (res : List TradeWithPrice)
    (hres : scrapePoliticianTrades baseUrl limit (pages.map Except.ok) = Except.ok res) :
    res.length ≤ limit ∧ res.map TradeWithPrice.index = List.range' 1 res.length := by
  have _ := hpos
  have hinv0 : tradesInv limit ([] : List TradeWithPrice) := by
    constructor
    · simp
    · simp
  unfold scrapePoliticianTrades at hres
  revert hres
  match hloop : scrapeLoop limit (pages.map Except.ok) [] 1 with
  | Except.ok l =>
    intro hres
    simp only [Except.ok.injEq] at hres
    exact hres ▸ scrapeLoop_inv limit _ _ _ _ hinv0 hloop
  | Except.error e =>
    intro hres
    simp at hres

/-! ### Concrete fixture trades for witnesses -/

/-- Fixture dates shared by the sample trades. -/
def sampleDates : TradeDates :=
  ⟨"12 Oct 2025", "2 Oct 2025", "10 days"⟩

/-- Fixture trade: a Democrat buy of ACME. -/
def tA : TradeWithPrice :=
  { index := 7
    politician := ⟨"Alice Adams", "Democrat", "House", "CA"⟩
    issuer := ⟨"ACME Corp", "ACM"⟩
    dates := sampleDates
    transaction := ⟨"buy", "1K-15K", "N/A"⟩ }

/-- Fixture trade: a Republican sell of ACME. -/
def tB : TradeWithPrice :=
  { index := 9
    politician := ⟨"Bob Brown", "Republican", "Senate", "TX"⟩
    issuer := ⟨"ACME Corp", "ACM"⟩
    dates := sampleDates
    transaction := ⟨"sell", "15K-50K", "N/A"⟩ }

/-- Fixture trade: a Republican buy of Globex. -/
def tC : TradeWithPrice :=
  { index := 3
    politician := ⟨"Carol Clark", "Republican", "House", "FL"⟩
    issuer := ⟨"Globex Inc", "GLX"⟩
    dates := sampleDates
    transaction := ⟨"buy", "1K-15K", "$42.00"⟩ }

/-- The two trades kept from a three-trade page under `limit = 2`. -/
def pagedSample : List TradeWithPrice :=
  renumberAppend 2 [] [tA, tB, tC]

/-- Witness for C1 at `limit = 2` over one page of three parsed trades. -/
theorem scrapePoliticianTrades_limit_index_witness :
    0 < 2 ∧ (pagedSample.length ≤ 2 ∧
      pagedSample.map TradeWithPrice.index = List.range' 1 pagedSample.length) :=
  ⟨by decide,
   scrapePoliticianTrades_limit_index "https://www.capitoltrades.com/trades" 2
     [[tA, tB, tC]] (by decide) pagedSample rfl⟩

/-- Claim C4: a fetch failure on page 1 fails the whole collection, wrapped
in the error message of the operation; a fetch failure on any page `≥ 2` instead
returns the trades accumulated so far without error. -/
theorem scrapePoliticianTrades_error_policy (baseUrl : String) (limit : Nat)
    (hpos : 0 < limit) (e : String)
    (rest : List (Except String (List TradeWithPrice))) :
    scrapePoliticianTrades baseUrl limit (Except.error e :: rest)
      = Except.error ("Failed to scrape politician trades: " ++ e)
    ∧ ∀ (acc : List TradeWithPrice) (page : Nat), 2 ≤ page →
        scrapeLoop limit (Except.error e :: rest) acc page = Except.ok acc := by
  constructor
  · simp [scrapePoliticianTrades, scrapeLoop, hpos]
  · intro acc page hp
    unfold scrapeLoop
    by_cases hl : acc.length < limit
    · have hne : page ≠ 1 := by omega
      simp [hl, hne]
    · simp [hl]

/-- Witness for C4 with a concrete failing fetch. -/
theorem scrapePoliticianTrades_error_policy_witness :
    (scrapePoliticianTrades "https://www.capitoltrades.com/trades" 1
        (Except.error "network down" :: [])
      = Except.error ("Failed to scrape politician trades: " ++ "network down"))
    ∧ scrapeLoop 1 (Except.error "network down" :: []) [tA] 2 = Except.ok [tA] :=
  ⟨(scrapePoliticianTrades_error_policy "https://www.capitoltrades.com/trades" 1
      (by decide) "network down" []).1,
   (scrapePoliticianTrades_error_policy "https://www.capitoltrades.com/trades" 1
      (by decide) "network down" []).2 [tA] 2 (by decide)⟩

/-- Claim C7: a page yielding zero trades stops pagination and returns the
accumulated trades, even when the accumulated count is still below `limit`;
in particular an empty first page yields the empty result. -/
theorem scrapePoliticianTrades_empty_page_stops (baseUrl : String) (limit : Nat)
    (rest : List (Except String (List TradeWithPrice)))
    (acc : List TradeWithPrice) (page : Nat) (hbelow : acc.length < limit) :
    scrapeLoop limit (Except.ok [] :: rest) acc page = Except.ok acc
    ∧ scrapePoliticianTrades baseUrl limit (Except.ok [] :: rest) = Except.ok [] := by
  constructor
  · simp [scrapeLoop, hbelow]
  · unfold scrapePoliticianTrades
    by_cases hp : ([] : List TradeWithPrice).length < limit
    · simp [scrapeLoop, hp]
    · simp [scrapeLoop, hp]

/-- Witness for C7: an empty page stops a run that has two of five trades. -/
theorem scrapePoliticianTrades_empty_page_stops_witness :
    scrapeLoop 5 (Except.ok [] :: []) [tA, tB] 3 = Except.ok [tA, tB]
    ∧ scrapePoliticianTrades "https://www.capitoltrades.com/trades" 5
        (Except.ok [] :: []) = Except.ok [] :=
  scrapePoliticianTrades_empty_page_stops "https://www.capitoltrades.com/trades" 5
    [] [tA, tB] 3 (by decide)

/-! ### Row filter (claim C6) -/

theorem parseRow_isSome_iff (i : Nat) (r : RawRow) (inm itk : String) :
    (parseRow i r inm itk).isSome = true
      ↔ ¬(trimStr r.politicianText = "" ∧ trimStr inm = "" ∧ trimStr r.txTypeText = "") := by
  unfold parseRow
  by_cases h : trimStr r.politicianText = "" ∧ trimStr inm = "" ∧ trimStr r.txTypeText = ""
  · simp [h]
  · simp [h]

theorem rowKept_iff (r : PageRow) :
    rowKept r = true
      ↔ ¬(trimStr r.row.politicianText = "" ∧ trimStr r.issuerNameText = ""
          ∧ trimStr r.row.txTypeText = "") := by
  simp [rowKept]
  tauto

theorem singlePage_length_aux (rows : List PageRow) :
    ∀ k : Nat,
      ((List.enumFrom k rows).filterMap
        (fun p => parseRow p.1 p.2.row p.2.issuerNameText p.2.issuerTickerText)).length
      = (rows.filter rowKept).length := by
  induction rows with
  | nil => intro k; simp
  | cons r rs ih =>
    intro k
    simp only [List.enumFrom, List.filterMap_cons, List.filter_cons]
    by_cases h : trimStr r.row.politicianText = "" ∧ trimStr r.issuerNameText = ""
        ∧ trimStr r.row.txTypeText = ""
    · have hnone : parseRow k r.row r.issuerNameText r.issuerTickerText = none := by
        have := parseRow_isSome_iff k r.row r.issuerNameText r.issuerTickerText
        cases hp : parseRow k r.row r.issuerNameText r.issuerTickerText with
        | none => rfl
        | some t => exact absurd ((this.mp (by simp [hp])) ) (by simpa using h)
      have hkept : rowKept r = false := by
        cases hk : rowKept r with
        | false => rfl
        | true => exact absurd ((rowKept_iff r).mp hk) (by simpa using h)
      simp [hnone, hkept, ih]
    · have hsome : (parseRow k r.row r.issuerNameText r.issuerTickerText).isSome = true :=
        (parseRow_isSome_iff k r.row r.issuerNameText r.issuerTickerText).mpr h
      have hkept : rowKept r = true := (rowKept_iff r).mpr h
      cases hp : parseRow k r.row r.issuerNameText r.issuerTickerText with
      | none => rw [hp] at hsome; simp at hsome
      | some t => simp [hp, hkept, ih]

/-- Claim C6: a parsed row is appended to the page result iff at least one of
politician name, issuer name, or transaction type is non-empty after
trimming, and this blank-row predicate is the sole filter (the page result
has exactly one trade per row satisfying it). -/
theorem singlePage_row_filter (rows : List PageRow) :
    (scrapePoliticianTradesSinglePage rows).length = (rows.filter rowKept).length
    ∧ ∀ (i : Nat) (r : PageRow),
        (parseRow i r.row r.issuerNameText r.issuerTickerText).isSome = true
          ↔ (trimStr r.row.politicianText ≠ "" ∨ trimStr r.issuerNameText ≠ ""
              ∨ trimStr r.row.txTypeText ≠ "") := by
  constructor
  · have := singlePage_length_aux rows 0
    simpa [scrapePoliticianTradesSinglePage, List.enum] using this
  · intro i r
    rw [parseRow_isSome_iff]
    tauto

/-! ### Insertion-ordered map (model of a JavaScript `Map`) -/

/-- Model of `Map.prototype.get` on an insertion-ordered association list. -/
def lookupA {α : Type} : List (String × α) → String → Option α
  | [], _ => none
  | (k2, v) :: rest, k => if k2 = k then some v else lookupA rest k

/-- Model of the source idiom `if (!m.has(key)) m.set(key, fresh); f(m.get(key))`
idiom: update the entry in place when the key exists, otherwise append the
key with `f fresh`. -/
def mapUpsert {α : Type} : List (String × α) → String → α → (α → α) → List (String × α)
  | [], k, fresh, f => [(k, f fresh)]
  | (k2, v) :: rest, k, fresh, f =>
    if k2 = k then (k2, f v) :: rest
    else (k2, v) :: mapUpsert rest k fresh f

theorem lookupA_mapUpsert_self {α : Type} (m : List (String × α)) (k : String)
    (fresh : α) (f : α → α) :
    lookupA (mapUpsert m k fresh f) k
      = some (match lookupA m k with | some v => f v | none => f fresh) := by
  induction m with
  | nil => simp [mapUpsert, lookupA]
  | cons p rest ih =>
    obtain ⟨k2, v⟩ := p
    by_cases h : k2 = k
    · simp [mapUpsert, lookupA, h]
    · simp [mapUpsert, lookupA, h, ih]

theorem lookupA_mapUpsert_other {α : Type} (m : List (String × α)) (k k2 : String)
    (fresh : α) (f : α → α) (h : k2 ≠ k) :
    lookupA (mapUpsert m k fresh f) k2 = lookupA m k2 := by
  induction m with
  | nil =>
    simp [mapUpsert, lookupA, Ne.symm h]
  | cons p rest ih =>
    obtain ⟨k3, v⟩ := p
    by_cases h3 : k3 = k
    · subst h3
      simp [mapUpsert, lookupA, Ne.symm h]
    · simp [mapUpsert, lookupA, h3, ih]

/-! ### Identifier cache and resolvers (`getCachedId`, `getIssuerId`,
`getPoliticianId`) -/

/-- One value of the `idCache` map: a resolved identifier and the
`Date.now()` at which it was stored. -/
structure CacheEntry where
  id : String
  timestamp : Int
deriving DecidableEq

/-- `CACHE_TTL`: ten minutes in milliseconds. -/
def CACHE_TTL : Int := 1000 * 60 * 10

/-- `getCachedId`: return the cached identifier only when the entry is
younger than `CACHE_TTL`; a stale entry is ignored, not removed. -/
def getCachedId (cache : List (String × CacheEntry)) (now : Int) (key : String) :
    Option String :=
  match lookupA cache key with
  | some cached => if now - cached.timestamp < CACHE_TTL then some cached.id else none
  | none => none

/-- `setCachedId`: store the identifier under `key` with the current time. -/
def setCachedId (cache : List (String × CacheEntry)) (now : Int) (key id : String) :
    List (String × CacheEntry) :=
  mapUpsert cache key ⟨id, now⟩ (fun _ => ⟨id, now⟩)

/-- Cache key used by `getIssuerId`. -/
def issuerKey (issuer : String) : String :=
  "issuer:" ++ lowerStr issuer

/-- Cache key used by `getPoliticianId`. -/
def politicianKey (politician : String) : String :=
  "politician:" ++ lowerStr politician

/-- The identifier extraction of `getIssuerId` (lines splitting the link
target on `"issuers/"`, dropping query string and fragment, and rejecting an
empty remainder). -/
def extractIssuerIdFromUrl (targetUrl : String) : Except String String :=
  let urlParts := splitOnStr targetUrl "issuers/"
  if urlParts.length < 2 then
    Except.error ("Invalid issuer URL format: " ++ targetUrl)
  else
    let issuerIdWithParams := urlParts.getD 1 ""
    let issuerId :=
      trimStr ((splitOnStr ((splitOnStr issuerIdWithParams "?").headD "") "#").headD "")
    if issuerId = "" then
      Except.error ("Could not extract issuer ID from URL: " ++ targetUrl)
    else Except.ok issuerId

/-- `getIssuerId(issuer)`. The outcome of the `findLink` search request is
abstracted as `findLinkResult` (the target URL of the first matching link,
or the search failure). Returns the operation result, the cache after the
call, and whether a network search was performed. -/
def getIssuerId (findLinkResult : Except String String)
    (cache : List (String × CacheEntry)) (now : Int) (issuer : String) :
    Except String String × List (String × CacheEntry) × Bool :=
  match getCachedId cache now (issuerKey issuer) with
  | some cachedId => (Except.ok cachedId, cache, false)
  | none =>
    match findLinkResult with
    | Except.error e =>
        (Except.error ("Failed to get issuer ID for \"" ++ issuer ++ "\": " ++ e),
         cache, true)
    | Except.ok targetUrl =>
      match extractIssuerIdFromUrl targetUrl with
      | Except.error e =>
          (Except.error ("Failed to get issuer ID for \"" ++ issuer ++ "\": " ++ e),
           cache, true)
      | Except.ok issuerId =>
          (Except.ok issuerId, setCachedId cache now (issuerKey issuer) issuerId, true)

/-- The identifier extraction of `getPoliticianId` (split on
`"politicians/"`). -/
def extractPoliticianIdFromUrl (targetUrl : String) : Except String String :=
  let urlParts := splitOnStr targetUrl "politicians/"
  if urlParts.length < 2 then
    Except.error ("Invalid politician URL format: " ++ targetUrl)
  else
    let politicianIdWithParams := urlParts.getD 1 ""
    let politicianId :=
      trimStr ((splitOnStr ((splitOnStr politicianIdWithParams "?").headD "") "#").headD "")
    if politicianId = "" then
      Except.error ("Could not extract politician ID from URL: " ++ targetUrl)
    else Except.ok politicianId

/-- `getPoliticianId(politician)`, abstracted like `getIssuerId`. -/
def getPoliticianId (findLinkResult : Except String String)
    (cache : List (String × CacheEntry)) (now : Int) (politician : String) :
    Except String String × List (String × CacheEntry) × Bool :=
  match getCachedId cache now (politicianKey politician) with
  | some cachedId => (Except.ok cachedId, cache, false)
  | none =>
    match findLinkResult with
    | Except.error e =>
        (Except.error ("Failed to get politician ID for \"" ++ politician ++ "\": " ++ e),
         cache, true)
    | Except.ok targetUrl =>
      match extractPoliticianIdFromUrl targetUrl with
      | Except.error e =>
          (Except.error ("Failed to get politician ID for \"" ++ politician ++ "\": " ++ e),
           cache, true)
      | Except.ok politicianId =>
          (Except.ok politicianId,
           setCachedId cache now (politicianKey politician) politicianId, true)

theorem getCachedId_isSome_iff (cache : List (String × CacheEntry)) (now : Int)
    (key : String) :
    (getCachedId cache now key).isSome = true
      ↔ ∃ ce, lookupA cache key = some ce ∧ now - ce.timestamp < CACHE_TTL := by
  unfold getCachedId
  cases h : lookupA cache key with
  | none => simp
  | some ce =>
    by_cases hf : now - ce.timestamp < CACHE_TTL
    · simp only [hf, if_true, Option.isSome_some, true_iff]
      exact ⟨ce, rfl, hf⟩
    · simp only [hf, if_false, Option.isSome_none, Bool.false_eq_true, false_iff]
      rintro ⟨ce2, hce2, hf2⟩
      rw [Option.some.injEq] at hce2
      exact hf (hce2 ▸ hf2)

theorem getCachedId_of_fresh {cache : List (String × CacheEntry)} {now : Int}
    {key : String} {ce : CacheEntry} (hce : lookupA cache key = some ce)
    (hf : now - ce.timestamp < CACHE_TTL) :
    getCachedId cache now key = some ce.id := by
  unfold getCachedId
  rw [hce]
  simp [hf]

theorem getCachedId_of_stale {cache : List (String × CacheEntry)} {now : Int}
    {key : String} {ce : CacheEntry} (hce : lookupA cache key = some ce)
    (hf : CACHE_TTL ≤ now - ce.timestamp) :
    getCachedId cache now key = none := by
  unfold getCachedId
  rw [hce]
  simp [not_lt.mpr hf]

theorem getIssuerId_didFetch (findLinkResult : Except String String)
    (cache : List (String × CacheEntry)) (now : Int) (issuer : String) :
    (getIssuerId findLinkResult cache now issuer).2.2
      = !(getCachedId cache now (issuerKey issuer)).isSome := by
  unfold getIssuerId
  cases hg : getCachedId cache now (issuerKey issuer) with
  | some i => simp
  | none =>
    cases findLinkResult with
    | error e => simp
    | ok url => cases hx : extractIssuerIdFromUrl url <;> simp [hx]

theorem getPoliticianId_didFetch (findLinkResult : Except String String)
    (cache : List (String × CacheEntry)) (now : Int) (politician : String) :
    (getPoliticianId findLinkResult cache now politician).2.2
      = !(getCachedId cache now (politicianKey politician)).isSome := by
  unfold getPoliticianId
  cases hg : getCachedId cache now (politicianKey politician) with
  | some i => simp
  | none =>
    cases findLinkResult with
    | error e => simp
    | ok url => cases hx : extractPoliticianIdFromUrl url <;> simp [hx]

theorem lookupA_setCachedId_self (cache : List (String × CacheEntry)) (now : Int)
    (key id : String) :
    lookupA (setCachedId cache now key id) key = some ⟨id, now⟩ := by
  unfold setCachedId
  rw [lookupA_mapUpsert_self]
  cases lookupA cache key <;> rfl

/-- Claim C8: `getIssuerId` and `getPoliticianId` return the cached
identifier without any network fetch exactly when the entry under the
kind-prefixed, lowercased query key is younger than ten minutes; a stale
entry is ignored (never removed — other keys are untouched by any call) and
a fresh lookup is performed and re-cached under the current timestamp. -/
theorem getId_cache_spec (findLinkResult : Except String String)
    (cache : List (String × CacheEntry)) (now : Int) (query : String) :
    (∀ ce, lookupA cache (issuerKey query) = some ce →
        now - ce.timestamp < CACHE_TTL →
        getIssuerId findLinkResult cache now query = (Except.ok ce.id, cache, false))
    ∧ ((getIssuerId findLinkResult cache now query).2.2 = false
        ↔ ∃ ce, lookupA cache (issuerKey query) = some ce
            ∧ now - ce.timestamp < CACHE_TTL)
    ∧ (∀ ce url newId, lookupA cache (issuerKey query) = some ce →
        CACHE_TTL ≤ now - ce.timestamp →
        findLinkResult = Except.ok url →
        extractIssuerIdFromUrl url = Except.ok newId →
        getIssuerId findLinkResult cache now query
          = (Except.ok newId, setCachedId cache now (issuerKey query) newId, true)
        ∧ lookupA (setCachedId cache now (issuerKey query) newId) (issuerKey query)
            = some ⟨newId, now⟩)
    ∧ (∀ k, k ≠ issuerKey query →
        lookupA ((getIssuerId findLinkResult cache now query).2.1) k = lookupA cache k)
    ∧ (∀ ce, lookupA cache (politicianKey query) = some ce →
        now - ce.timestamp < CACHE_TTL →
        getPoliticianId findLinkResult cache now query = (Except.ok ce.id, cache, false))
    ∧ ((getPoliticianId findLinkResult cache now query).2.2 = false
        ↔ ∃ ce, lookupA cache (politicianKey query) = some ce
            ∧ now - ce.timestamp < CACHE_TTL)
    ∧ (∀ ce url newId, lookupA cache (politicianKey query) = some ce →
        CACHE_TTL ≤ now - ce.timestamp →
        findLinkResult = Except.ok url →
        extractPoliticianIdFromUrl url = Except.ok newId →
        getPoliticianId findLinkResult cache now query
          = (Except.ok newId, setCachedId cache now (politicianKey query) newId, true)
        ∧ lookupA (setCachedId cache now (politicianKey query) newId)
            (politicianKey query) = some ⟨newId, now⟩)
    ∧ (∀ k, k ≠ politicianKey query →
        lookupA ((getPoliticianId findLinkResult cache now query).2.1) k
          = lookupA cache k) := by
  refine ⟨?_, ?_, ?_, ?_, ?_, ?_, ?_, ?_⟩
  · intro ce hce hf
    unfold getIssuerId
    rw [getCachedId_of_fresh hce hf]
  · rw [getIssuerId_didFetch]
    simp [getCachedId_isSome_iff]
  · intro ce url newId hce hstale hurl hext
    subst hurl
    have hnone := getCachedId_of_stale hce hstale
    refine ⟨?_, lookupA_setCachedId_self cache now (issuerKey query) newId⟩
    unfold getIssuerId
    rw [hnone]
    simp [hext]
  · intro k hk
    unfold getIssuerId
    cases hg : getCachedId cache now (issuerKey query) with
    | some i => rfl
    | none =>
      cases findLinkResult with
      | error e => rfl
      | ok url =>
        cases hx : extractIssuerIdFromUrl url with
        | error e => simp [hx]
        | ok newId =>
          simp only [hx]
          exact lookupA_mapUpsert_other cache (issuerKey query) k _ _ hk
  · intro ce hce hf
    unfold getPoliticianId
    rw [getCachedId_of_fresh hce hf]
  · rw [getPoliticianId_didFetch]
    simp [getCachedId_isSome_iff]
  · intro ce url newId hce hstale hurl hext
    subst hurl
    have hnone := getCachedId_of_stale hce hstale
    refine ⟨?_, lookupA_setCachedId_self cache now (politicianKey query) newId⟩
    unfold getPoliticianId
    rw [hnone]
    simp [hext]
  · intro k hk
    unfold getPoliticianId
    cases hg : getCachedId cache now (politicianKey query) with
    | some i => rfl
    | none =>
      cases findLinkResult with
      | error e => rfl
      | ok url =>
        cases hx : extractPoliticianIdFromUrl url with
        | error e => simp [hx]
        | ok newId =>
          simp only [hx]
          exact lookupA_mapUpsert_other cache (politicianKey query) k _ _ hk

/-- Fixture cache with one fresh issuer entry and one politician entry that
is stale at time 700000. -/
def cacheW : List (String × CacheEntry) :=
  [("issuer:apple", ⟨"apple-inc", 0⟩), ("politician:nancy pelosi", ⟨"P000197", 0⟩)]

/-- Witness for C8: a fresh cache hit answers without fetching; a stale
entry triggers a fetch whose result is re-cached at the current time. -/
theorem getId_cache_spec_witness :
    getIssuerId (Except.error "offline") cacheW 1000 "Apple"
      = (Except.ok "apple-inc", cacheW, false)
    ∧ (getPoliticianId
          (Except.ok "https://www.capitoltrades.com/politicians/P000197?txDate=90d")
          cacheW 700000 "Nancy Pelosi"
        = (Except.ok "P000197",
           setCachedId cacheW 700000 (politicianKey "Nancy Pelosi") "P000197", true)
       ∧ lookupA (setCachedId cacheW 700000 (politicianKey "Nancy Pelosi") "P000197")
           (politicianKey "Nancy Pelosi") = some ⟨"P000197", 700000⟩) :=
  ⟨(getId_cache_spec (Except.error "offline") cacheW 1000 "Apple").1
      ⟨"apple-inc", 0⟩ (by decide) (by decide),
   (getId_cache_spec
       (Except.ok "https://www.capitoltrades.com/politicians/P000197?txDate=90d")
       cacheW 700000 "Nancy Pelosi").2.2.2.2.2.2.1
     ⟨"P000197", 0⟩ "https://www.capitoltrades.com/politicians/P000197?txDate=90d"
     "P000197" (by decide) (by decide) rfl (by rfl)⟩

/-! ### Per-politician and per-asset statistics (`getPoliticianStats`,
`getAssetStats`) -/

/-- Model of `Number.prototype.toFixed(2)` followed by `parseFloat`: round to
two decimal places (half away from zero; the arguments are nonnegative). -/
def roundTo2 (q : ℚ) : ℚ :=
  ((round (q * 100) : Int) : ℚ) / 100

/-- The `trades.filter(t => t.transaction.type?.toLowerCase() === ty).length`
counters. -/
def countTxType (trades : List TradeWithPrice) (ty : String) : Nat :=
  (trades.filter (fun t => lowerStr t.transaction.type == ty)).length

/-- The buy/sell-ratio computation shared verbatim by `getPoliticianStats`
and `getAssetStats`: `buys / sells` to two decimals when `sells > 0`, `buys`
when only buys exist, `0` when both are zero. -/
def computeBuySellRatio (buys sells : Nat) : ℚ :=
  if 0 < sells then roundTo2 ((buys : ℚ) / (sells : ℚ))
  else if 0 < buys then (buys : ℚ)
  else 0

/-- One `mostTradedAssets` output entry. -/
structure MostTradedAsset where
  issuer : String
  ticker : String
  transactionCount : Nat
deriving DecidableEq

/-- One `mostActiveTraders` output entry. -/
structure ActiveTrader where
  politician : String
  party : String
  chamber : String
  transactionCount : Nat
deriving DecidableEq

/-- One `assetMap` value of `getPoliticianStats`: ticker captured at first
occurrence, then a transaction count. -/
structure CountAgg where
  ticker : String
  count : Nat
deriving DecidableEq

/-- One `politicianMap` value of `getAssetStats`. -/
structure TraderAgg where
  party : String
  chamber : String
  count : Nat
deriving DecidableEq

/-- The per-trade `assetMap` update of `getPoliticianStats`. -/
def issuerCountStep (m : List (String × CountAgg)) (t : TradeWithPrice) :
    List (String × CountAgg) :=
  let key := if t.issuer.name = "" then "Unknown" else t.issuer.name
  mapUpsert m key ⟨t.issuer.ticker, 0⟩ (fun a => { a with count := a.count + 1 })

/-- The per-trade `politicianMap` update of `getAssetStats`. -/
def politicianCountStep (m : List (String × TraderAgg)) (t : TradeWithPrice) :
    List (String × TraderAgg) :=
  let key := if t.politician.name = "" then "Unknown" else t.politician.name
  mapUpsert m key ⟨t.politician.party, t.politician.chamber, 0⟩
    (fun a => { a with count := a.count + 1 })

/-- Descending-count order of the top-ten sorts (comparator
`b.count - a.count`): `a` may come before `b` iff the comparator is `≤ 0`.
The stable JavaScript `Array.prototype.sort` is modelled by the stable
`List.insertionSort` under this total preorder. -/
def mostTradedR (a b : MostTradedAsset) : Prop :=
  b.transactionCount ≤ a.transactionCount

instance : DecidableRel mostTradedR := fun a b =>
  Nat.decLe b.transactionCount a.transactionCount

/-- Descending-count order of `mostActiveTraders`. -/
def activeTraderR (a b : ActiveTrader) : Prop :=
  b.transactionCount ≤ a.transactionCount

instance : DecidableRel activeTraderR := fun a b =>
  Nat.decLe b.transactionCount a.transactionCount

/-- The report produced by `getPoliticianStats`. -/
structure PoliticianStatsReport where
  politician : String
  days : Nat
  totalTrades : Nat
  buys : Nat
  sells : Nat
  receives : Nat
  exchanges : Nat
  buySellRatio : ℚ
  mostTradedAssets : List MostTradedAsset
deriving DecidableEq

/-- The report produced by `getAssetStats`. -/
structure AssetStatsReport where
  symbol : String
  days : Nat
  totalTrades : Nat
  buys : Nat
  sells : Nat
  receives : Nat
  exchanges : Nat
  buySellRatio : ℚ
  mostActiveTraders : List ActiveTrader
deriving DecidableEq

/-- The in-memory aggregation of `getPoliticianStats` over the scraped trade
set (the scrape itself is §`scrapePoliticianTrades`). -/
def getPoliticianStats (politician : String) (days : Nat)
    (trades : List TradeWithPrice) : PoliticianStatsReport :=
  let buys := countTxType trades "buy"
  let sells := countTxType trades "sell"
  let assetMap := trades.foldl issuerCountStep []
  { politician := politician
    days := days
    totalTrades := trades.length
    buys := buys
    sells := sells
    receives := countTxType trades "receive"
    exchanges := countTxType trades "exchange"
    buySellRatio := computeBuySellRatio buys sells
    mostTradedAssets :=
      (List.insertionSort mostTradedR
        (assetMap.map (fun p => MostTradedAsset.mk p.1 p.2.ticker p.2.count))).take 10 }

/-- The in-memory aggregation of `getAssetStats` over the scraped trade set. -/
def getAssetStats (symbol : String) (days : Nat)
    (trades : List TradeWithPrice) : AssetStatsReport :=
  let buys := countTxType trades "buy"
  let sells := countTxType trades "sell"
  let politicianMap := trades.foldl politicianCountStep []
  { symbol := symbol
    days := days
    totalTrades := trades.length
    buys := buys
    sells := sells
    receives := countTxType trades "receive"
    exchanges := countTxType trades "exchange"
    buySellRatio := computeBuySellRatio buys sells
    mostActiveTraders :=
      (List.insertionSort activeTraderR
        (politicianMap.map
          (fun p => ActiveTrader.mk p.1 p.2.party p.2.chamber p.2.count))).take 10 }

theorem roundTo2_nonneg (q : ℚ) (h : 0 ≤ q) : 0 ≤ roundTo2 q := by
  unfold roundTo2
  have h2 : (0 : Int) ≤ round (q * 100) := by
    rw [round_eq]
    apply Int.floor_nonneg.mpr
    have : (0 : ℚ) ≤ q * 100 := by positivity
    linarith
  have h3 : (0 : ℚ) ≤ ((round (q * 100) : Int) : ℚ) := by exact_mod_cast h2
  positivity

theorem computeBuySellRatio_cases (b s : Nat) :
    0 ≤ computeBuySellRatio b s
    ∧ (0 < s → computeBuySellRatio b s = roundTo2 ((b : ℚ) / (s : ℚ)))
    ∧ (s = 0 → 0 < b → computeBuySellRatio b s = (b : ℚ))
    ∧ (b = 0 → s = 0 → computeBuySellRatio b s = 0) := by
  unfold computeBuySellRatio
  by_cases hs : 0 < s
  · refine ⟨?_, fun _ => by simp [hs], fun h0 => by omega, fun _ h0 => by omega⟩
    simp only [hs, if_true]
    apply roundTo2_nonneg
    positivity
  · by_cases hb : 0 < b
    · refine ⟨?_, fun h => absurd h hs, fun _ _ => by simp [hs, hb], fun h0 => by omega⟩
      simp [hs, hb]
    · refine ⟨?_, fun h => absurd h hs, fun _ h => absurd h hb, fun _ _ => by simp [hs, hb]⟩
      simp [hs, hb]

/-- Claim C5: the buy/sell ratio computed by `getPoliticianStats` and by
`getAssetStats` is nonnegative, equals `buys / sells` rounded to two
decimals when `sells > 0`, equals `buys` exactly when `sells = 0` and
`buys > 0`, and equals `0` when both counts are zero. -/
theorem buySellRatio_spec (politician symbol : String) (days : Nat)
    (trades : List TradeWithPrice) :
    (0 ≤ (getPoliticianStats politician days trades).buySellRatio
     ∧ (0 < (getPoliticianStats politician days trades).sells →
         (getPoliticianStats politician days trades).buySellRatio
           = roundTo2 (((getPoliticianStats politician days trades).buys : ℚ)
               / ((getPoliticianStats politician days trades).sells : ℚ)))
     ∧ ((getPoliticianStats politician days trades).sells = 0 →
         0 < (getPoliticianStats politician days trades).buys →
         (getPoliticianStats politician days trades).buySellRatio
           = ((getPoliticianStats politician days trades).buys : ℚ))
     ∧ ((getPoliticianStats politician days trades).buys = 0 →
         (getPoliticianStats politician days trades).sells = 0 →
         (getPoliticianStats politician days trades).buySellRatio = 0))
    ∧ (0 ≤ (getAssetStats symbol days trades).buySellRatio
     ∧ (0 < (getAssetStats symbol days trades).sells →
         (getAssetStats symbol days trades).buySellRatio
           = roundTo2 (((getAssetStats symbol days trades).buys : ℚ)
               / ((getAssetStats symbol days trades).sells : ℚ)))
     ∧ ((getAssetStats symbol days trades).sells = 0 →
         0 < (getAssetStats symbol days trades).buys →
         (getAssetStats symbol days trades).buySellRatio
           = ((getAssetStats symbol days trades).buys : ℚ))
     ∧ ((getAssetStats symbol days trades).buys = 0 →
         (getAssetStats symbol days trades).sells = 0 →
         (getAssetStats symbol days trades).buySellRatio = 0)) :=
  ⟨computeBuySellRatio_cases (countTxType trades "buy") (countTxType trades "sell"),
   computeBuySellRatio_cases (countTxType trades "buy") (countTxType trades "sell")⟩

/-- Witness for C5 on a three-trade set with two buys and one sell. -/
theorem buySellRatio_spec_witness :
    0 < (getPoliticianStats "Alice Adams" 90 [tA, tB, tC]).sells
    ∧ (getPoliticianStats "Alice Adams" 90 [tA, tB, tC]).buySellRatio
        = roundTo2 (((getPoliticianStats "Alice Adams" 90 [tA, tB, tC]).buys : ℚ)
            / ((getPoliticianStats "Alice Adams" 90 [tA, tB, tC]).sells : ℚ)) :=
  ⟨by decide,
   (buySellRatio_spec "Alice Adams" "ACME Corp" 90 [tA, tB, tC]).1.2.1 (by decide)⟩

/-! ### Buy momentum (`getBuyMomentumAssets`) -/

/-- One `assetMap` value of `getBuyMomentumAssets`: ticker captured at first
occurrence, then buy, sell and total counters. -/
structure AssetAgg where
  ticker : String
  buys : Nat
  sells : Nat
  totalTrades : Nat
deriving DecidableEq

/-- The per-trade `assetMap` update of `getBuyMomentumAssets`. -/
def buyMomentumStep (m : List (String × AssetAgg)) (t : TradeWithPrice) :
    List (String × AssetAgg) :=
  let key := if t.issuer.name = "" then "Unknown" else t.issuer.name
  mapUpsert m key ⟨t.issuer.ticker, 0, 0, 0⟩ (fun a =>
    let a1 := { a with totalTrades := a.totalTrades + 1 }
    let ty := lowerStr t.transaction.type
    let a2 := if ty = "buy" then { a1 with buys := a1.buys + 1 } else a1
    if ty = "sell" then { a2 with sells := a2.sells + 1 } else a2)

/-- The `assetMap` of `getBuyMomentumAssets` over the whole trade set. -/
def buildAssetMap (trades : List TradeWithPrice) : List (String × AssetAgg) :=
  trades.foldl buyMomentumStep []

/-- The ratio attached to each grouped asset:
`sells > 0 ? buys / sells : buys`. -/
def entryRatio (buys sells : Nat) : ℚ :=
  if 0 < sells then (buys : ℚ) / (sells : ℚ) else (buys : ℚ)

/-- One element of the intermediate `{name, ...data}` array of
`getBuyMomentumAssets`. -/
structure MomentumEntry where
  name : String
  ticker : String
  buys : Nat
  sells : Nat
  totalTrades : Nat
  buySellRatio : ℚ
deriving DecidableEq

/-- The `.map` attaching names and ratios to the grouped counters. -/
def momentumEntries (m : List (String × AssetAgg)) : List MomentumEntry :=
  m.map (fun p =>
    { name := p.1, ticker := p.2.ticker, buys := p.2.buys, sells := p.2.sells,
      totalTrades := p.2.totalTrades, buySellRatio := entryRatio p.2.buys p.2.sells })

/-- The sort order of `getBuyMomentumAssets` (comparator
`b.ratio - a.ratio`, ties by `b.buys - a.buys`): `a` may precede `b` iff the
comparator is `≤ 0`. -/
def momentumR (a b : MomentumEntry) : Prop :=
  b.buySellRatio < a.buySellRatio
    ∨ (a.buySellRatio = b.buySellRatio ∧ b.buys ≤ a.buys)

instance : DecidableRel momentumR := fun a b => by
  unfold momentumR
  infer_instance

instance : IsTrans MomentumEntry momentumR :=
  ⟨by
    intro a b c hab hbc
    rcases hab with h1 | ⟨h1e, h1b⟩ <;> rcases hbc with h2 | ⟨h2e, h2b⟩
    · exact Or.inl (lt_trans h2 h1)
    · exact Or.inl (h2e ▸ h1)
    · exact Or.inl (by rw [h1e]; exact h2)
    · exact Or.inr ⟨h1e.trans h2e, le_trans h2b h1b⟩⟩

instance : IsTotal MomentumEntry momentumR :=
  ⟨by
    intro a b
    rcases lt_trichotomy a.buySellRatio b.buySellRatio with h | h | h
    · exact Or.inr (Or.inl h)
    · rcases Nat.le_total b.buys a.buys with hb | hb
      · exact Or.inl (Or.inr ⟨h, hb⟩)
      · exact Or.inr (Or.inr ⟨h.symm, hb⟩)
    · exact Or.inl (Or.inl h)⟩

/-- One ranked output entry of `getBuyMomentumAssets`. -/
structure RankedAsset where
  rank : Nat
  issuer : String
  ticker : String
  buys : Nat
  sells : Nat
  netBuys : Int
  buySellRatio : ℚ
  totalTransactions : Nat
deriving DecidableEq

/-- The final `.map((asset, index) => ({rank: index + 1, ...}))` entry
builder. -/
def mkRankedAsset (n : Nat) (e : MomentumEntry) : RankedAsset :=
  { rank := n
    issuer := e.name
    ticker := e.ticker
    buys := e.buys
    sells := e.sells
    netBuys := (e.buys : Int) - (e.sells : Int)
    buySellRatio := roundTo2 e.buySellRatio
    totalTransactions := e.totalTrades }

/-- Rank attachment: `l.map((x, index) => mk (index + 1) x)` expressed with
an explicit starting rank. -/
def attachRanks {α β : Type} (mk : Nat → α → β) : Nat → List α → List β
  | _, [] => []
  | n, a :: rest => mk n a :: attachRanks mk (n + 1) rest

/-- The report produced by `getBuyMomentumAssets`. -/
structure BuyMomentumReport where
  limit : Nat
  days : Nat
  totalAssets : Nat
  assets : List RankedAsset
deriving DecidableEq

/-- The in-memory aggregation of `getBuyMomentumAssets` over the scraped
trade set: group, attach ratios, keep strict net buyers, sort, truncate,
rank. -/
def getBuyMomentumAssets (limit days : Nat) (trades : List TradeWithPrice) :
    BuyMomentumReport :=
  let entries := momentumEntries (buildAssetMap trades)
  let ranked := attachRanks mkRankedAsset 1
    ((List.insertionSort momentumR
        (entries.filter (fun e => decide (e.sells < e.buys)))).take limit)
  { limit := limit, days := days, totalAssets := ranked.length, assets := ranked }

theorem mem_attachRanks {α β : Type} (mk : Nat → α → β) :
    ∀ (n : Nat) (l : List α) (x : β), x ∈ attachRanks mk n l →
      ∃ j a, a ∈ l ∧ x = mk j a := by
  intro n l
  induction l generalizing n with
  | nil => intro x hx; simp [attachRanks] at hx
  | cons a rest ih =>
    intro x hx
    simp only [attachRanks, List.mem_cons] at hx
    rcases hx with rfl | hx
    · exact ⟨n, a, List.mem_cons_self a rest, rfl⟩
    · obtain ⟨j, b, hb, rfl⟩ := ih (n + 1) x hx
      exact ⟨j, b, List.mem_cons_of_mem a hb, rfl⟩

theorem attachRanks_pairwise {α β : Type} (mk : Nat → α → β)
    (R : α → α → Prop) (S : β → β → Prop)
    (h : ∀ i j a b, R a b → S (mk i a) (mk j b)) :
    ∀ (n : Nat) (l : List α), l.Pairwise R → (attachRanks mk n l).Pairwise S := by
  intro n l
  induction l generalizing n with
  | nil => intro _; simp [attachRanks]
  | cons a rest ih =>
    intro hp
    rw [List.pairwise_cons] at hp
    simp only [attachRanks]
    rw [List.pairwise_cons]
    refine ⟨?_, ih (n + 1) hp.2⟩
    intro x hx
    obtain ⟨j, b, hb, rfl⟩ := mem_attachRanks mk (n + 1) rest x hx
    exact h n j a b (hp.1 b hb)

theorem attachRanks_length {α β : Type} (mk : Nat → α → β) :
    ∀ (n : Nat) (l : List α), (attachRanks mk n l).length = l.length := by
  intro n l
  induction l generalizing n with
  | nil => rfl
  | cons a rest ih => simp [attachRanks, ih]

theorem attachRanks_map_rank {α β : Type} (mk : Nat → α → β) (f : β → Nat)
    (h : ∀ n a, f (mk n a) = n) :
    ∀ (n : Nat) (l : List α), (attachRanks mk n l).map f = List.range' n l.length := by
  intro n l
  induction l generalizing n with
  | nil => rfl
  | cons a rest ih =>
    simp only [attachRanks, List.map_cons, h, List.length_cons, List.range'_succ, ih]

theorem momentumEntries_ratio (m : List (String × AssetAgg)) :
    ∀ e ∈ momentumEntries m, e.buySellRatio = entryRatio e.buys e.sells := by
  intro e he
  simp only [momentumEntries, List.mem_map] at he
  obtain ⟨p, _, rfl⟩ := he
  rfl

/-- Claim C2: `getBuyMomentumAssets` returns only issuers with strictly more
buys than sells, sorted by buy/sell ratio descending (ratio `buys/sells`
when `sells > 0`, else `buys`) with ties broken by raw buy count descending,
truncated to `limit`, with ranks exactly `1..k` assigned after truncation. -/
theorem getBuyMomentumAssets_spec (limit days : Nat) (trades : List TradeWithPrice) :
    (∀ a ∈ (getBuyMomentumAssets limit days trades).assets, a.sells < a.buys)
    ∧ (getBuyMomentumAssets limit days trades).assets.Pairwise
        (fun a b => entryRatio b.buys b.sells < entryRatio a.buys a.sells
          ∨ (entryRatio a.buys a.sells = entryRatio b.buys b.sells ∧ b.buys ≤ a.buys))
    ∧ (getBuyMomentumAssets limit days trades).assets.length ≤ limit
    ∧ (getBuyMomentumAssets limit days trades).assets.map RankedAsset.rank
        = List.range' 1 (getBuyMomentumAssets limit days trades).assets.length := by
  have hassets : (getBuyMomentumAssets limit days trades).assets
      = attachRanks mkRankedAsset 1
          ((List.insertionSort momentumR
              ((momentumEntries (buildAssetMap trades)).filter
                (fun e => decide (e.sells < e.buys)))).take limit) := rfl
  have hmemsrc : ∀ e, e ∈ (List.insertionSort momentumR
      ((momentumEntries (buildAssetMap trades)).filter
        (fun e => decide (e.sells < e.buys)))).take limit →
      e ∈ (momentumEntries (buildAssetMap trades)).filter
        (fun e => decide (e.sells < e.buys)) := by
    intro e he
    have := List.mem_of_mem_take he
    exact (List.perm_insertionSort momentumR _).mem_iff.mp this
  refine ⟨?_, ?_, ?_, ?_⟩
  · intro a ha
    rw [hassets] at ha
    obtain ⟨j, e, he, rfl⟩ := mem_attachRanks mkRankedAsset 1 _ a ha
    have := hmemsrc e he
    have hfil := (List.mem_filter.mp this).2
    simpa [mkRankedAsset] using of_decide_eq_true hfil
  · rw [hassets]
    have hsorted : (List.insertionSort momentumR
        ((momentumEntries (buildAssetMap trades)).filter
          (fun e => decide (e.sells < e.buys)))).Pairwise momentumR :=
      List.sorted_insertionSort momentumR _
    have htake := hsorted.sublist (List.take_sublist limit _)
    have hratioform : ((List.insertionSort momentumR
        ((momentumEntries (buildAssetMap trades)).filter
          (fun e => decide (e.sells < e.buys)))).take limit).Pairwise
        (fun a b => entryRatio b.buys b.sells < entryRatio a.buys a.sells
          ∨ (entryRatio a.buys a.sells = entryRatio b.buys b.sells ∧ b.buys ≤ a.buys)) := by
      refine htake.imp_of_mem ?_
      intro a b ha hb hr
      have hae : a.buySellRatio = entryRatio a.buys a.sells :=
        momentumEntries_ratio _ a (List.mem_of_mem_filter (hmemsrc a ha))
      have hbe : b.buySellRatio = entryRatio b.buys b.sells :=
        momentumEntries_ratio _ b (List.mem_of_mem_filter (hmemsrc b hb))
      rw [momentumR, hae, hbe] at hr
      exact hr
    refine attachRanks_pairwise mkRankedAsset _ _ ?_ 1 _ hratioform
    intro i j a b hr
    exact hr
  · rw [hassets, attachRanks_length]
    exact le_trans (Nat.le_of_eq (List.length_take _ _)) (min_le_left _ _)
  · rw [hassets, attachRanks_map_rank mkRankedAsset RankedAsset.rank (fun _ _ => rfl),
      attachRanks_length]

/-- The single buy-momentum entry produced by the fixture trades (Globex has
one buy and no sell; ACME is net-neutral and filtered out). -/
def eGlobex : MomentumEntry :=
  { name := "Globex Inc", ticker := "GLX", buys := 1, sells := 0,
    totalTrades := 1, buySellRatio := entryRatio 1 0 }

/-- Witness for C2: the retained fixture entry indeed has more buys than
sells. -/
theorem getBuyMomentumAssets_spec_witness :
    (mkRankedAsset 1 eGlobex).sells < (mkRankedAsset 1 eGlobex).buys :=
  (getBuyMomentumAssets_spec 10 90 [tA, tB, tC]).1 (mkRankedAsset 1 eGlobex)
    (by
      have h : (getBuyMomentumAssets 10 90 [tA, tB, tC]).assets
          = [mkRankedAsset 1 eGlobex] := rfl
      rw [h]
      exact List.mem_singleton.mpr rfl)

/-! ### Party buy momentum (`getPartyBuyMomentum`) -/

/-- Buy/sell counters for one party. -/
structure PartySplit where
  buys : Nat
  sells : Nat
deriving DecidableEq

/-- One `assetMap` value of `getPartyBuyMomentum`. -/
structure PartyAgg where
  ticker : String
  democrats : PartySplit
  republicans : PartySplit
deriving DecidableEq

/-- The per-trade tally update of `getPartyBuyMomentum`: party membership by
case-insensitive substring containment, buy and sell branches incrementing
each matching party independently. -/
def partyTallyUpdate (t : TradeWithPrice) (a : PartyAgg) : PartyAgg :=
  let ty := lowerStr t.transaction.type
  let partyLower := lowerStr t.politician.party
  let isDem := strContainsSub partyLower "democrat"
  let isRep := strContainsSub partyLower "republican"
  let a1 :=
    if ty = "buy" then
      { a with
        democrats :=
          if isDem then { a.democrats with buys := a.democrats.buys + 1 } else a.democrats
        republicans :=
          if isRep then { a.republicans with buys := a.republicans.buys + 1 }
          else a.republicans }
    else a
  if ty = "sell" then
    { a1 with
      democrats :=
        if isDem then { a1.democrats with sells := a1.democrats.sells + 1 } else a1.democrats
      republicans :=
        if isRep then { a1.republicans with sells := a1.republicans.sells + 1 }
        else a1.republicans }
  else a1

/-- The per-trade `assetMap` update of `getPartyBuyMomentum`. -/
def partyStep (m : List (String × PartyAgg)) (t : TradeWithPrice) :
    List (String × PartyAgg) :=
  let key := if t.issuer.name = "" then "Unknown" else t.issuer.name
  mapUpsert m key ⟨t.issuer.ticker, ⟨0, 0⟩, ⟨0, 0⟩⟩ (partyTallyUpdate t)

/-- The issuer grouping of `getPartyBuyMomentum` over the whole trade set. -/
def partyGroups (trades : List TradeWithPrice) : List (String × PartyAgg) :=
  trades.foldl partyStep []

/-- `demNet` of one grouped issuer. -/
def demNetOf (g : String × PartyAgg) : Int :=
  (g.2.democrats.buys : Int) - (g.2.democrats.sells : Int)

/-- `repNet` of one grouped issuer. -/
def repNetOf (g : String × PartyAgg) : Int :=
  (g.2.republicans.buys : Int) - (g.2.republicans.sells : Int)

/-- `demTotal` of one grouped issuer. -/
def demTotalOf (g : String × PartyAgg) : Nat :=
  g.2.democrats.buys + g.2.democrats.sells

/-- `repTotal` of one grouped issuer. -/
def repTotalOf (g : String × PartyAgg) : Nat :=
  g.2.republicans.buys + g.2.republicans.sells

/-- One pushed bucket element (the `{issuer, ticker, democrats, republicans,
score}` object, flattened). -/
structure PartyEntry where
  issuer : String
  ticker : String
  demBuys : Nat
  demSells : Nat
  demNet : Int
  repBuys : Nat
  repSells : Nat
  repNet : Int
  score : Int
deriving DecidableEq

/-- Bucket element builder. -/
def mkPartyEntry (score : Int) (g : String × PartyAgg) : PartyEntry :=
  { issuer := g.1
    ticker := g.2.ticker
    demBuys := g.2.democrats.buys
    demSells := g.2.democrats.sells
    demNet := demNetOf g
    repBuys := g.2.republicans.buys
    repSells := g.2.republicans.sells
    repNet := repNetOf g
    score := score }

/-- The consensus-bucket predicate. -/
def consensusB (g : String × PartyAgg) : Bool :=
  decide (0 < demNetOf g) && decide (0 < repNetOf g)
    && decide (2 ≤ demTotalOf g) && decide (2 ≤ repTotalOf g)

/-- The Democrat-favorites predicate. -/
def demFavB (g : String × PartyAgg) : Bool :=
  decide (0 < demNetOf g) && decide (repTotalOf g ≤ demTotalOf g)

/-- The Republican-favorites predicate. -/
def repFavB (g : String × PartyAgg) : Bool :=
  decide (0 < repNetOf g) && decide (demTotalOf g ≤ repTotalOf g)

/-- The `consensus` array before sorting and truncation. -/
def consensusAll (trades : List TradeWithPrice) : List PartyEntry :=
  ((partyGroups trades).filter consensusB).map
    (fun g => mkPartyEntry (demNetOf g + repNetOf g) g)

/-- The `democratFavorites` array before sorting and truncation. -/
def democratFavoritesAll (trades : List TradeWithPrice) : List PartyEntry :=
  ((partyGroups trades).filter demFavB).map (fun g => mkPartyEntry (demNetOf g) g)

/-- The `republicanFavorites` array before sorting and truncation. -/
def republicanFavoritesAll (trades : List TradeWithPrice) : List PartyEntry :=
  ((partyGroups trades).filter repFavB).map (fun g => mkPartyEntry (repNetOf g) g)

/-- Descending-score order of the bucket sorts (comparator
`b.score - a.score`). -/
def scoreR (a b : PartyEntry) : Prop :=
  b.score ≤ a.score

instance : DecidableRel scoreR := fun a b => Int.decLe b.score a.score

instance : IsTrans PartyEntry scoreR :=
  ⟨fun _ _ _ hab hbc => le_trans hbc hab⟩

instance : IsTotal PartyEntry scoreR :=
  ⟨fun a b => (Int.le_total b.score a.score).imp id id⟩

/-- One ranked bucket output entry. -/
structure RankedPartyEntry where
  rank : Nat
  issuer : String
  ticker : String
  demBuys : Nat
  demSells : Nat
  demNet : Int
  repBuys : Nat
  repSells : Nat
  repNet : Int
  score : Int
deriving DecidableEq

/-- The `{rank: idx + 1, ...asset}` builder of each bucket. -/
def mkRankedPartyEntry (n : Nat) (e : PartyEntry) : RankedPartyEntry :=
  { rank := n
    issuer := e.issuer
    ticker := e.ticker
    demBuys := e.demBuys
    demSells := e.demSells
    demNet := e.demNet
    repBuys := e.repBuys
    repSells := e.repSells
    repNet := e.repNet
    score := e.score }

/-- The report produced by `getPartyBuyMomentum`. -/
structure PartyMomentumReport where
  limit : Nat
  days : Nat
  consensus : List RankedPartyEntry
  democratFavorites : List RankedPartyEntry
  republicanFavorites : List RankedPartyEntry
deriving DecidableEq

/-- The final pipeline of one bucket: sort by score descending, truncate, rank. -/
def rankedBucket (limit : Nat) (l : List PartyEntry) : List RankedPartyEntry :=
  attachRanks mkRankedPartyEntry 1 ((List.insertionSort scoreR l).take limit)

/-- The in-memory aggregation of `getPartyBuyMomentum` over the scraped
trade set. -/
def getPartyBuyMomentum (limit days : Nat) (trades : List TradeWithPrice) :
    PartyMomentumReport :=
  { limit := limit
    days := days
    consensus := rankedBucket limit (consensusAll trades)
    democratFavorites := rankedBucket limit (democratFavoritesAll trades)
    republicanFavorites := rankedBucket limit (republicanFavoritesAll trades) }

/-! ### Key uniqueness of the insertion-ordered maps -/

/-- The keys of an association-list map. -/
def keysOf {α : Type} (m : List (String × α)) : List String :=
  m.map Prod.fst

theorem mem_keys_mapUpsert {α : Type} (m : List (String × α)) (k : String)
    (fresh : α) (f : α → α) :
    ∀ a, a ∈ keysOf (mapUpsert m k fresh f) → a ∈ keysOf m ∨ a = k := by
  induction m with
  | nil =>
    intro a ha
    simp [mapUpsert, keysOf] at ha
    exact Or.inr ha
  | cons p rest ih =>
    obtain ⟨k2, v⟩ := p
    intro a ha
    by_cases h2 : k2 = k
    · simp only [mapUpsert, h2, if_true, keysOf, List.map_cons, List.mem_cons] at ha ⊢
      rcases ha with rfl | ha
      · exact Or.inl (Or.inl rfl)
      · exact Or.inl (Or.inr ha)
    · simp only [mapUpsert, h2, if_false, keysOf, List.map_cons, List.mem_cons] at ha ⊢
      rcases ha with rfl | ha
      · exact Or.inl (Or.inl rfl)
      · rcases ih a ha with hm | he
        · exact Or.inl (Or.inr hm)
        · exact Or.inr he

theorem keysOf_mapUpsert_nodup {α : Type} (m : List (String × α)) (k : String)
    (fresh : α) (f : α → α) (h : (keysOf m).Nodup) :
    (keysOf (mapUpsert m k fresh f)).Nodup := by
  induction m with
  | nil => simp [mapUpsert, keysOf]
  | cons p rest ih =>
    obtain ⟨k2, v⟩ := p
    rw [keysOf, List.map_cons, List.nodup_cons] at h
    by_cases h2 : k2 = k
    · simpa [mapUpsert, h2, keysOf, List.nodup_cons] using h
    · simp only [mapUpsert, h2, if_false, keysOf, List.map_cons, List.nodup_cons]
      refine ⟨?_, ih h.2⟩
      intro hmem
      rcases mem_keys_mapUpsert rest k fresh f k2 hmem with hm | he
      · exact h.1 hm
      · exact h2 he

theorem partyGroups_keys_nodup (trades : List TradeWithPrice) :
    (keysOf (partyGroups trades)).Nodup := by
  have haux : ∀ (ts : List TradeWithPrice) (m : List (String × PartyAgg)),
      (keysOf m).Nodup → (keysOf (ts.foldl partyStep m)).Nodup := by
    intro ts
    induction ts with
    | nil => intro m hm; exact hm
    | cons t rest ih =>
      intro m hm
      exact ih _ (keysOf_mapUpsert_nodup m _ _ _ hm)
  exact haux trades [] (by simp [keysOf])

theorem assoc_eq_of_keys_nodup {α : Type} :
    ∀ (m : List (String × α)), (keysOf m).Nodup →
      ∀ g g2, g ∈ m → g2 ∈ m → g.1 = g2.1 → g = g2 := by
  intro m
  induction m with
  | nil => intro _ g g2 hg; simp at hg
  | cons p rest ih =>
    intro hnd g g2 hg hg2 hk
    rw [keysOf, List.map_cons, List.nodup_cons] at hnd
    rcases List.mem_cons.mp hg with h1 | h1
    · rcases List.mem_cons.mp hg2 with h2 | h2
      · rw [h1, h2]
      · exfalso
        apply hnd.1
        have hm : g2.1 ∈ List.map Prod.fst rest := List.mem_map_of_mem Prod.fst h2
        rw [← hk, h1] at hm
        exact hm
    · rcases List.mem_cons.mp hg2 with h2 | h2
      · exfalso
        apply hnd.1
        have hm : g.1 ∈ List.map Prod.fst rest := List.mem_map_of_mem Prod.fst h1
        rw [hk, h2] at hm
        exact hm
      · exact ih hnd.2 g g2 h1 h2 hk

theorem bucketAll_mem_iff (trades : List TradeWithPrice)
    (p : (String × PartyAgg) → Bool) (sc : (String × PartyAgg) → Int)
    (g : String × PartyAgg) (hg : g ∈ partyGroups trades) :
    (∃ e ∈ ((partyGroups trades).filter p).map (fun g2 => mkPartyEntry (sc g2) g2),
        e.issuer = g.1 ∧ e.score = sc g)
      ↔ p g = true := by
  constructor
  · rintro ⟨e, he, hiss, _⟩
    rw [List.mem_map] at he
    obtain ⟨g2, hg2, rfl⟩ := he
    have hg2m : g2 ∈ partyGroups trades := List.mem_of_mem_filter hg2
    have hkey : g2.1 = g.1 := hiss
    have heq := assoc_eq_of_keys_nodup _ (partyGroups_keys_nodup trades) g2 g hg2m hg hkey
    rw [← heq]
    exact (List.mem_filter.mp hg2).2
  · intro hp
    exact ⟨mkPartyEntry (sc g) g,
      List.mem_map_of_mem _ (List.mem_filter.mpr ⟨hg, hp⟩), rfl, rfl⟩

theorem rankedBucket_spec (limit : Nat) (l : List PartyEntry) :
    (rankedBucket limit l).Pairwise (fun a b => b.score ≤ a.score)
    ∧ (rankedBucket limit l).length ≤ limit
    ∧ (rankedBucket limit l).map RankedPartyEntry.rank
        = List.range' 1 (rankedBucket limit l).length := by
  refine ⟨?_, ?_, ?_⟩
  · have hsorted : (List.insertionSort scoreR l).Pairwise scoreR :=
      List.sorted_insertionSort scoreR l
    have htake := hsorted.sublist (List.take_sublist limit _)
    exact attachRanks_pairwise mkRankedPartyEntry scoreR _ (fun _ _ _ _ hr => hr) 1 _ htake
  · rw [rankedBucket, attachRanks_length]
    exact le_trans (Nat.le_of_eq (List.length_take _ _)) (min_le_left _ _)
  · rw [rankedBucket, attachRanks_map_rank mkRankedPartyEntry RankedPartyEntry.rank
      (fun _ _ => rfl), attachRanks_length]

/-- Claim C3: an issuer is placed in the consensus bucket iff
`demNet > 0 ∧ repNet > 0 ∧ demTotal ≥ 2 ∧ repTotal ≥ 2` (score
`demNet + repNet`), in Democrat favorites iff `demNet > 0 ∧
demTotal ≥ repTotal` (score `demNet`), and in Republican favorites iff
`repNet > 0 ∧ repTotal ≥ demTotal` (score `repNet`); the predicates are
independent, so an issuer satisfying several of them appears in every
corresponding bucket; each bucket is independently sorted by its own score
descending, truncated to `limit`, and ranked `1..k`. -/
theorem getPartyBuyMomentum_spec (limit days : Nat) (trades : List TradeWithPrice) :
    (∀ g ∈ partyGroups trades,
      ((∃ e ∈ consensusAll trades, e.issuer = g.1 ∧ e.score = demNetOf g + repNetOf g)
        ↔ (0 < demNetOf g ∧ 0 < repNetOf g ∧ 2 ≤ demTotalOf g ∧ 2 ≤ repTotalOf g))
      ∧ ((∃ e ∈ democratFavoritesAll trades, e.issuer = g.1 ∧ e.score = demNetOf g)
        ↔ (0 < demNetOf g ∧ repTotalOf g ≤ demTotalOf g))
      ∧ ((∃ e ∈ republicanFavoritesAll trades, e.issuer = g.1 ∧ e.score = repNetOf g)
        ↔ (0 < repNetOf g ∧ demTotalOf g ≤ repTotalOf g)))
    ∧ ((getPartyBuyMomentum limit days trades).consensus.Pairwise
          (fun a b => b.score ≤ a.score)
      ∧ (getPartyBuyMomentum limit days trades).consensus.length ≤ limit
      ∧ (getPartyBuyMomentum limit days trades).consensus.map RankedPartyEntry.rank
          = List.range' 1 (getPartyBuyMomentum limit days trades).consensus.length)
    ∧ ((getPartyBuyMomentum limit days trades).democratFavorites.Pairwise
          (fun a b => b.score ≤ a.score)
      ∧ (getPartyBuyMomentum limit days trades).democratFavorites.length ≤ limit
      ∧ (getPartyBuyMomentum limit days trades).democratFavorites.map
            RankedPartyEntry.rank
          = List.range' 1 (getPartyBuyMomentum limit days trades).democratFavorites.length)
    ∧ ((getPartyBuyMomentum limit days trades).republicanFavorites.Pairwise
          (fun a b => b.score ≤ a.score)
      ∧ (getPartyBuyMomentum limit days trades).republicanFavorites.length ≤ limit
      ∧ (getPartyBuyMomentum limit days trades).republicanFavorites.map
            RankedPartyEntry.rank
          = List.range'
              1 (getPartyBuyMomentum limit days trades).republicanFavorites.length) := by
  refine ⟨?_, rankedBucket_spec limit (consensusAll trades),
    rankedBucket_spec limit (democratFavoritesAll trades),
    rankedBucket_spec limit (republicanFavoritesAll trades)⟩
  intro g hg
  refine ⟨?_, ?_, ?_⟩
  · rw [consensusAll, bucketAll_mem_iff trades consensusB
      (fun g2 => demNetOf g2 + repNetOf g2) g hg]
    simp [consensusB, and_assoc]
  · rw [democratFavoritesAll, bucketAll_mem_iff trades demFavB demNetOf g hg]
    simp [demFavB]
  · rw [republicanFavoritesAll, bucketAll_mem_iff trades repFavB repNetOf g hg]
    simp [repFavB]

/-- Fixture: two Democrat buys of ACME. -/
def tD1 : TradeWithPrice :=
  { index := 1
    politician := ⟨"Dana Diaz", "Democrat", "House", "CA"⟩
    issuer := ⟨"ACME Corp", "ACM"⟩
    dates := sampleDates
    transaction := ⟨"buy", "1K-15K", "N/A"⟩ }

/-- Fixture: second Democrat buy of ACME. -/
def tD2 : TradeWithPrice :=
  { tD1 with index := 2, politician := ⟨"Dave Dunn", "Democrat", "Senate", "NY"⟩ }

/-- Fixture: a Republican buy of ACME. -/
def tR1 : TradeWithPrice :=
  { tD1 with index := 3, politician := ⟨"Rita Reed", "Republican", "House", "TX"⟩ }

/-- Fixture: second Republican buy of ACME. -/
def tR2 : TradeWithPrice :=
  { tD1 with index := 4, politician := ⟨"Ron Ross", "Republican", "Senate", "OH"⟩ }

/-- The fixture trade set with bipartisan buying of ACME. -/
def c3trades : List TradeWithPrice := [tD1, tD2, tR1, tR2]

/-- The single group produced by `c3trades`. -/
def gACME : String × PartyAgg := ("ACME Corp", ⟨"ACM", ⟨2, 0⟩, ⟨2, 0⟩⟩)

/-- Witness for C3: the bipartisan fixture issuer lands in the consensus
bucket with score `demNet + repNet`. -/
theorem getPartyBuyMomentum_spec_witness :
    ∃ e ∈ consensusAll c3trades,
      e.issuer = gACME.1 ∧ e.score = demNetOf gACME + repNetOf gACME :=
  (((getPartyBuyMomentum_spec 5 90 c3trades).1 gACME (by decide)).1).mpr
    ⟨by decide, by decide, by decide, by decide⟩

/-- Claim C10: party attribution in `getPartyBuyMomentum` uses two
independent substring tests, so a trade whose party contains both
"democrat" and "republican" increments the buy (or sell) tallies of both parties,
and a trade whose party contains neither increments no tally at all. -/
theorem partyTallyUpdate_party_attribution (t : TradeWithPrice) (a : PartyAgg) :
    (strContainsSub (lowerStr t.politician.party) "democrat" = true →
     strContainsSub (lowerStr t.politician.party) "republican" = true →
     lowerStr t.transaction.type = "buy" →
     partyTallyUpdate t a
       = { a with
             democrats := { a.democrats with buys := a.democrats.buys + 1 }
             republicans := { a.republicans with buys := a.republicans.buys + 1 } })
    ∧ (strContainsSub (lowerStr t.politician.party) "democrat" = true →
       strContainsSub (lowerStr t.politician.party) "republican" = true →
       lowerStr t.transaction.type = "sell" →
       partyTallyUpdate t a
         = { a with
               democrats := { a.democrats with sells := a.democrats.sells + 1 }
               republicans := { a.republicans with sells := a.republicans.sells + 1 } })
    ∧ (strContainsSub (lowerStr t.politician.party) "democrat" = false →
       strContainsSub (lowerStr t.politician.party) "republican" = false →
       partyTallyUpdate t a = a) := by
  refine ⟨?_, ?_, ?_⟩
  · intro hdem hrep hty
    simp [partyTallyUpdate, hdem, hrep, hty]
  · intro hdem hrep hty
    simp [partyTallyUpdate, hdem, hrep, hty]
  · intro hdem hrep
    simp [partyTallyUpdate, hdem, hrep]

/-- Fixture trade whose party string contains both substrings. -/
def tBoth : TradeWithPrice :=
  { index := 1
    politician := ⟨"Pat Page", "Democratic-Republican", "House", "PA"⟩
    issuer := ⟨"ACME Corp", "ACM"⟩
    dates := sampleDates
    transaction := ⟨"buy", "1K-15K", "N/A"⟩ }

/-- Fixture trade whose party string contains neither substring. -/
def tNone : TradeWithPrice :=
  { tBoth with politician := ⟨"Ind Igo", "Independent", "Senate", "VT"⟩ }

/-- Fixture tally state. -/
def aW : PartyAgg := ⟨"ACM", ⟨3, 1⟩, ⟨2, 2⟩⟩

/-- Witness for C10 at a both-parties trade and a neither-party trade. -/
theorem partyTallyUpdate_party_attribution_witness :
    partyTallyUpdate tBoth aW
      = { aW with
            democrats := { aW.democrats with buys := aW.democrats.buys + 1 }
            republicans := { aW.republicans with buys := aW.republicans.buys + 1 } }
    ∧ partyTallyUpdate tNone aW = aW :=
  ⟨(partyTallyUpdate_party_attribution tBoth aW).1 (by decide) (by decide) (by decide),
   (partyTallyUpdate_party_attribution tNone aW).2.2 (by decide) (by decide)⟩

/-! ### Tool-call parameter validation (`src/index.ts`, `CallToolRequestSchema`
handler). An argument object field that is absent is `none`; JavaScript
`args.x || dflt` maps `none` and `some 0` to the default. The success value
records the parameters the subsequent network pipeline would be called with;
a validation failure returns before any network access. -/

/-- The allowed lookback windows. -/
def allowedDays : List Int := [30, 90, 180, 365]

/-- The allowed transaction-type filter values. -/
def allowedTypeValues : List String := ["BUY", "SELL", "RECEIVE", "EXCHANGE"]

/-- `(args.days as number) || 90`. -/
def effDays (days : Option Int) : Int :=
  match days with
  | none => 90
  | some d => if d = 0 then 90 else d

/-- `(args.limit as number) || dflt`. -/
def effLimit (dflt : Int) (limit : Option Int) : Int :=
  match limit with
  | none => dflt
  | some l => if l = 0 then dflt else l

/-- The party validation of the `get_politician_trades` case: `party` must
be null, `"DEMOCRAT"` or `"REPUBLICAN"`. -/
def partyInvalid (party : Option String) : Bool :=
  match party with
  | none => false
  | some p => !(p == "DEMOCRAT") && !(p == "REPUBLICAN")

/-- The network call issued by `getPoliticianTrades` after validation. -/
structure PoliticianTradesCall where
  symbol : Option String
  politician : Option String
  party : Option String
  txTypes : List String
  days : Int
deriving DecidableEq

/-- The network call issued by `getTopTradedAssets` after validation. -/
structure TopAssetsCall where
  limit : Int
  days : Int
deriving DecidableEq

/-- The network call issued by `getPartyBuyMomentum` after validation. -/
structure PartyMomentumCall where
  limit : Int
  days : Int
deriving DecidableEq

/-- The `get_politician_trades` case of the tool-call handler: defaulting,
`days` validation, `party` validation, per-entry `type` validation, then the
network call. -/
def handleGetPoliticianTrades (symbol politician party : Option String)
    (typeArg : Option (List String)) (daysArg : Option Int) :
    Except String PoliticianTradesCall :=
  let days := effDays daysArg
  let type := typeArg.getD []
  if !(allowedDays.contains days) then
    Except.error "days must be one of: 30, 90, 180, 365"
  else if partyInvalid party then
    Except.error "party must be \x27DEMOCRAT\x27 or \x27REPUBLICAN\x27"
  else if type.any (fun t => !(allowedTypeValues.contains t)) then
    Except.error "Each type must be one of: BUY, SELL, RECEIVE, EXCHANGE"
  else
    Except.ok ⟨symbol, politician, party, type, days⟩

/-- The `get_top_traded_assets` case: defaulting, `days` validation, `limit`
bounds 1–50, then the network call. -/
def handleGetTopTradedAssets (limitArg daysArg : Option Int) :
    Except String TopAssetsCall :=
  let limit := effLimit 10 limitArg
  let days := effDays daysArg
  if !(allowedDays.contains days) then
    Except.error "days must be one of: 30, 90, 180, 365"
  else if limit < 1 ∨ 50 < limit then
    Except.error "limit must be between 1 and 50"
  else
    Except.ok ⟨limit, days⟩

/-- The `get_party_buy_momentum` case: defaulting, `days` validation,
`limit` bounds 1–20, then the network call. -/
def handleGetPartyBuyMomentum (limitArg daysArg : Option Int) :
    Except String PartyMomentumCall :=
  let limit := effLimit 5 limitArg
  let days := effDays daysArg
  if !(allowedDays.contains days) then
    Except.error "days must be one of: 30, 90, 180, 365"
  else if limit < 1 ∨ 20 < limit then
    Except.error "limit must be between 1 and 20"
  else
    Except.ok ⟨limit, days⟩

/-- Counterexample to C9 as stated: `limit = 0` is outside the documented
1–50 bounds of `get_top_traded_assets`, yet the handler does not fail — the
JavaScript `args.limit || 10` replaces the falsy `0` with the default and
the call proceeds to the network with `limit = 10`. -/
theorem handlers_validation_counterexample :
    ¬(1 ≤ (0 : Int) ∧ (0 : Int) ≤ 50)
    ∧ handleGetTopTradedAssets (some 0) (some 90) = Except.ok ⟨10, 90⟩ := by
  constructor
  · decide
  · rfl

/-- Claim C9 (amended): an invocation carrying an invalid parameter value —
`days` not in {30, 90, 180, 365}, `limit` outside the bounds of the operation,
`party` set but not DEMOCRAT/REPUBLICAN, or a transaction-type entry outside
the four allowed values — fails with a validation message and never reaches
the network call, except that a `days` or `limit` value of `0` is replaced
by the default of the operation before validation and therefore not rejected. -/
theorem handlers_validation_spec (symbol politician party : Option String)
    (typeArg : Option (List String)) (limitArg daysArg : Option Int) :
    ((∀ d, daysArg = some d → d ≠ 0 → allowedDays.contains d = false →
        ∃ msg, handleGetPoliticianTrades symbol politician party typeArg daysArg
          = Except.error msg)
     ∧ (∀ p, party = some p → p ≠ "DEMOCRAT" → p ≠ "REPUBLICAN" →
        ∃ msg, handleGetPoliticianTrades symbol politician party typeArg daysArg
          = Except.error msg)
     ∧ (∀ l t, typeArg = some l → t ∈ l → allowedTypeValues.contains t = false →
        ∃ msg, handleGetPoliticianTrades symbol politician party typeArg daysArg
          = Except.error msg))
    ∧ ((∀ d, daysArg = some d → d ≠ 0 → allowedDays.contains d = false →
        ∃ msg, handleGetTopTradedAssets limitArg daysArg = Except.error msg)
     ∧ (∀ l, limitArg = some l → l ≠ 0 → (l < 1 ∨ 50 < l) →
        ∃ msg, handleGetTopTradedAssets limitArg daysArg = Except.error msg))
    ∧ ((∀ d, daysArg = some d → d ≠ 0 → allowedDays.contains d = false →
        ∃ msg, handleGetPartyBuyMomentum limitArg daysArg = Except.error msg)
     ∧ (∀ l, limitArg = some l → l ≠ 0 → (l < 1 ∨ 20 < l) →
        ∃ msg, handleGetPartyBuyMomentum limitArg daysArg = Except.error msg)) := by
  have hdays : ∀ d, daysArg = some d → d ≠ 0 → allowedDays.contains d = false →
      effDays daysArg ∉ allowedDays := by
    intro d hd hne hc
    subst hd
    simp only [effDays, hne, if_false]
    simpa using hc
  refine ⟨⟨?_, ?_, ?_⟩, ⟨?_, ?_⟩, ⟨?_, ?_⟩⟩
  · intro d hd hne hc
    exact ⟨"days must be one of: 30, 90, 180, 365", by simp [handleGetPoliticianTrades, hdays d hd hne hc]⟩
  · intro p hp hd hr
    by_cases hdv : effDays daysArg ∈ allowedDays
    · have hpi : partyInvalid party = true := by
        subst hp
        simp [partyInvalid, hd, hr]
      exact ⟨"party must be \x27DEMOCRAT\x27 or \x27REPUBLICAN\x27", by simp [handleGetPoliticianTrades, hdv, hpi]⟩
    · exact ⟨"days must be one of: 30, 90, 180, 365", by simp [handleGetPoliticianTrades, hdv]⟩
  · intro l t hl ht hc
    by_cases hdv : effDays daysArg ∈ allowedDays
    · by_cases hpv : partyInvalid party = true
      · exact ⟨"party must be \x27DEMOCRAT\x27 or \x27REPUBLICAN\x27", by simp [handleGetPoliticianTrades, hdv, hpv]⟩
      · have hpf : partyInvalid party = false := Bool.eq_false_iff.mpr hpv
        have hex : ∃ x ∈ typeArg.getD [], x ∉ allowedTypeValues := by
          subst hl
          refine ⟨t, ?_, ?_⟩
          · simpa using ht
          · simpa using hc
        exact ⟨"Each type must be one of: BUY, SELL, RECEIVE, EXCHANGE", by simp [handleGetPoliticianTrades, hdv, hpf, hex]⟩
    · exact ⟨"days must be one of: 30, 90, 180, 365", by simp [handleGetPoliticianTrades, hdv]⟩
  · intro d hd hne hc
    exact ⟨"days must be one of: 30, 90, 180, 365", by simp [handleGetTopTradedAssets, hdays d hd hne hc]⟩
  · intro l hl hne hb
    by_cases hdv : effDays daysArg ∈ allowedDays
    · have hlim : effLimit 10 limitArg = l := by
        subst hl
        simp [effLimit, hne]
      have hbb : effLimit 10 limitArg < 1 ∨ 50 < effLimit 10 limitArg := by
        rw [hlim]; exact hb
      exact ⟨"limit must be between 1 and 50", by simp [handleGetTopTradedAssets, hdv, hbb]⟩
    · exact ⟨"days must be one of: 30, 90, 180, 365", by simp [handleGetTopTradedAssets, hdv]⟩
  · intro d hd hne hc
    exact ⟨"days must be one of: 30, 90, 180, 365", by simp [handleGetPartyBuyMomentum, hdays d hd hne hc]⟩
  · intro l hl hne hb
    by_cases hdv : effDays daysArg ∈ allowedDays
    · have hlim : effLimit 5 limitArg = l := by
        subst hl
        simp [effLimit, hne]
      have hbb : effLimit 5 limitArg < 1 ∨ 20 < effLimit 5 limitArg := by
        rw [hlim]; exact hb
      exact ⟨"limit must be between 1 and 20", by simp [handleGetPartyBuyMomentum, hdv, hbb]⟩
    · exact ⟨"days must be one of: 30, 90, 180, 365", by simp [handleGetPartyBuyMomentum, hdv]⟩

/-- Witness for the amended C9 at concrete invalid inputs: `days = 45` and
`limit = 60` are rejected, and an invalid `party` string is rejected. -/
theorem handlers_validation_spec_witness :
    (∃ msg, handleGetTopTradedAssets (some 60) (some 90) = Except.error msg)
    ∧ (∃ msg, handleGetPoliticianTrades none none (some "GREEN") none (some 90)
        = Except.error msg)
    ∧ (∃ msg, handleGetPartyBuyMomentum (some 5) (some 45) = Except.error msg) :=
  ⟨(handlers_validation_spec none none none none (some 60) (some 90)).2.1.2 60
      rfl (by decide) (by decide),
   (handlers_validation_spec none none (some "GREEN") none none (some 90)).1.2.1 "GREEN"
      rfl (by decide) (by decide),
   (handlers_validation_spec none none none none (some 5) (some 45)).2.2.1 45
      rfl (by decide) (by decide)⟩

end CapitolTrades
